import Mathlib

/-!
Shallow embedding of the voicewriter-Assistant client, a collaborative
voice-transcription web client.  The embedding follows the source files:

* `src/hooks/useRealTimeSharing.tsx` — session broadcaster: channel setup,
  broadcast handlers, join/leave, throttled message broadcasting;
* `src/hooks/useSpeechRecognition.tsx` — speech capture adapter: the
  `onresult` and `onend` handlers of the recognizer;
* the connection interface component — the static shared-secret gate.

React `useState`/`useRef` cells become fields of an explicit state record;
each event handler or callback becomes a function from state (plus the event
payload and, where the code reads `Date.now()`, an explicit clock value) to
state, paired with its observable outputs (the broadcast it sends, the toasts
it shows).  JS objects keyed by `userId` become association lists with
JS-object update semantics (replace in place, else append).
-/

/-- The kind of a toast notification (`toast.success` / `toast.error` /
`toast.info` from the `sonner` library). -/
inductive ToastKind where
  | success
  | error
  | info
deriving DecidableEq, Repr

/-- A toast notification shown to the user. -/
structure Toast where
  kind : ToastKind
  msg : String
deriving DecidableEq, Repr

/-- `Message` from `useRealTimeSharing.tsx`: the payload broadcast over the
session channel.  `timestamp` is a millisecond clock value (`Date.now()`). -/
structure Message where
  userId : String
  userName : String
  text : String
  isRecording : Bool
  timestamp : Nat
  messageId : String
deriving DecidableEq, Repr

/-- An entry of the `connectedUsers` map: `{name, isRecording}`. -/
structure ConnectedUser where
  name : String
  isRecording : Bool
deriving DecidableEq, Repr

/-- The `connectedUsers` JS object, keyed by user id, as an association
list in insertion order. -/
abbrev UserMap := List (String × ConnectedUser)

/-- Lookup of a key in the `connectedUsers` object. -/
def lookupUser : UserMap → String → Option ConnectedUser
  | [], _ => none
  | (k, v) :: rest, u => if k = u then some v else lookupUser rest u

/-- JS spread update `{...prev, [u]: v}`: if the key is present its value is
replaced in place, otherwise the entry is appended at the end. -/
def setUser : UserMap → String → ConnectedUser → UserMap
  | [], u, v => [(u, v)]
  | (k, w) :: rest, u, v =>
      if k = u then (u, v) :: rest else (k, w) :: setUser rest u v

/-- JS `delete newState[u]` on the `connectedUsers` object. -/
def removeUser (l : UserMap) (u : String) : UserMap :=
  l.filter (fun p => !(p.1 = u))

/-- The state held by the `useRealTimeSharing` hook: the `useState` cells
(`userId`, `userName`, `sessionId`, `messages`, `connectedUsers`) and the
`useRef` cells (`latestMessageRef`, `lastBroadcastTimeRef`, `isRecordingRef`,
`sessionChannelRef` — modelled by whether a channel is stored — and
`processedMessageIds`). -/
structure SharingState where
  userId : String
  userName : String
  sessionId : String
  messages : List Message
  connectedUsers : UserMap
  latestMessageRef : String
  lastBroadcastTimeRef : Nat
  isRecordingRef : Bool
  hasChannel : Bool
  processedMessageIds : List String
deriving DecidableEq, Repr

/-- The broadcast `message` event handler registered in
`setupRealtimeChannel` (lines 51–86): skip if the message id was already
processed; otherwise mark it processed, append the message to `messages`
unless an entry with the same `messageId` or the same `(userId, timestamp)`
pair is already there, and overwrite the `connectedUsers` entry of the sender. -/
def handleMessageEvent (s : SharingState) (m : Message) : SharingState :=
  if m.messageId ∈ s.processedMessageIds then s
  else
    let messages' :=
      if s.messages.any (fun msg =>
          msg.messageId = m.messageId ∨
          (msg.userId = m.userId ∧ msg.timestamp = m.timestamp)) then
        s.messages
      else
        s.messages ++ [m]
    { s with
      processedMessageIds := m.messageId :: s.processedMessageIds
      messages := messages'
      connectedUsers :=
        setUser s.connectedUsers m.userId ⟨m.userName, m.isRecording⟩ }

/-- The broadcast `user_joined` event handler (lines 87–100): toast when
the joiner is a different user, and add the joiner to `connectedUsers` with
`isRecording := false`. -/
def handleUserJoined (s : SharingState) (newUserId newUserName : String) :
    SharingState × List Toast :=
  ( { s with connectedUsers :=
        setUser s.connectedUsers newUserId ⟨newUserName, false⟩ },
    if newUserId = s.userId then []
    else [⟨ToastKind.success, newUserName ++ " joined the session"⟩] )

/-- The broadcast `user_left` event handler (lines 101–115): toast when the
leaver is a different user, and delete the leaver from `connectedUsers`. -/
def handleUserLeft (s : SharingState) (leftUserId leftUserName : String) :
    SharingState × List Toast :=
  ( { s with connectedUsers := removeUser s.connectedUsers leftUserId },
    if leftUserId = s.userId then []
    else [⟨ToastKind.info, leftUserName ++ " left the session"⟩] )

/-- `setupRealtimeChannel` (lines 31–130), synchronous effects: the previous
channel (if any) is removed, the processed-message-id set is cleared, and a
new channel for the session is created and stored. -/
def setupRealtimeChannel (s : SharingState) : SharingState :=
  { s with processedMessageIds := [], hasChannel := true }

/-- `joinSession` (lines 169–187): an empty id (falsy in JS) toasts an error
and returns; otherwise `sessionId` is set, `connectedUsers` is reset to just
the local user with `isRecording := false`, and the realtime channel is set
up — no existence check of any kind is performed on the id. -/
def joinSession (s : SharingState) (id : String) : SharingState × List Toast :=
  if id = "" then
    (s, [⟨ToastKind.error, "Invalid session ID"⟩])
  else
    let s1 := { s with
      sessionId := id
      connectedUsers := [(s.userId, ⟨s.userName, false⟩)] }
    (setupRealtimeChannel s1,
     [⟨ToastKind.success, "Joined session: " ++ id⟩])

/-- `broadcastMessage` (lines 230–293): returns the updated state and the
message sent over the channel, if any.  `now` is the value of `Date.now()`.
Guards: no session or no stored channel → return; neither the text nor the
recording flag changed, or throttled (recording flag unchanged and less than
1000 ms since the last broadcast) → return.  Otherwise the refs are updated,
the message is sent, appended to `messages` (with an extra dedup check) and
the recording flag of the local user in `connectedUsers` is updated. -/
def broadcastMessage (s : SharingState) (now : Nat) (text : String)
    (isRecording : Bool) : SharingState × Option Message :=
  if s.sessionId = "" ∨ s.hasChannel = false then (s, none)
  else
    let textChanged := text ≠ s.latestMessageRef
    let recordingStatusChanged := isRecording ≠ s.isRecordingRef
    let shouldThrottle :=
      ¬recordingStatusChanged ∧ now - s.lastBroadcastTimeRef < 1000
    if (¬textChanged ∧ ¬recordingStatusChanged) ∨ shouldThrottle then
      (s, none)
    else
      let messageId := s.userId ++ "-" ++ toString now
      let newMessage : Message :=
        ⟨s.userId, s.userName, text, isRecording, now, messageId⟩
      let messages' :=
        if s.messages.any (fun msg =>
            msg.messageId = messageId ∨
            (msg.userId = s.userId ∧
             ((msg.timestamp : Int) - (now : Int)).natAbs < 100 ∧
             msg.text = text)) then
          s.messages
        else
          s.messages ++ [newMessage]
      -- `{...prev, [userId]: {...prev[userId], isRecording}}`; when the local
      -- user has no entry the JS spread leaves `name` undefined, modelled "".
      let oldName := ((lookupUser s.connectedUsers s.userId).map
        ConnectedUser.name).getD ""
      ( { s with
          latestMessageRef := text
          isRecordingRef := isRecording
          lastBroadcastTimeRef := now
          processedMessageIds := messageId :: s.processedMessageIds
          messages := messages'
          connectedUsers :=
            setUser s.connectedUsers s.userId ⟨oldName, isRecording⟩ },
        some newMessage )

/-- `updateTranscription` (lines 295–310): no session → return; text equal to
the last broadcast text → return; text a short (< 5 characters) extension of
it within 1000 ms of the last broadcast → return; otherwise broadcast the
text with the current recording flag. -/
def updateTranscription (s : SharingState) (now : Nat) (text : String) :
    SharingState × Option Message :=
  if s.sessionId = "" then (s, none)
  else if text = s.latestMessageRef then (s, none)
  else if text.startsWith s.latestMessageRef ∧
      text.length - s.latestMessageRef.length < 5 ∧
      now - s.lastBroadcastTimeRef < 1000 then
    (s, none)
  else
    broadcastMessage s now text s.isRecordingRef

/-- `updateRecordingStatus` (lines 312–321): no session or unchanged flag →
return; otherwise broadcast, with the text taken from
`messages.find(msg => msg.userId === userId)` — the FIRST message of the
local user in the array (or the empty string). -/
def updateRecordingStatus (s : SharingState) (now : Nat) (isRecording : Bool) :
    SharingState × Option Message :=
  if s.sessionId = "" ∨ isRecording = s.isRecordingRef then (s, none)
  else
    let latestMessage :=
      if s.messages.length > 0 then
        s.messages.find? (fun msg => msg.userId = s.userId)
      else none
    let currentText := (latestMessage.map Message.text).getD ""
    broadcastMessage s now currentText isRecording

/-- `getLatestUserMessage` (lines 324–328): the last element of the messages
of the given user, or none. -/
def getLatestUserMessage (s : SharingState) (targetUserId : String) :
    Option Message :=
  let userMessages := s.messages.filter (fun msg => msg.userId = targetUserId)
  userMessages.getLast?

/-- Delivery of a sequence of broadcast `message` events to a peer. -/
def deliverAll (s : SharingState) (ms : List Message) : SharingState :=
  ms.foldl handleMessageEvent s

/-- The last message of a given user in a delivery sequence (later messages
take precedence). -/
def lastWriteOf : List Message → String → Option Message
  | [], _ => none
  | m :: rest, u =>
      match lastWriteOf rest u with
      | some m' => some m'
      | none => if m.userId = u then some m else none

/-! ### Speech capture adapter (`useSpeechRecognition.tsx`) -/

/-- An effect issued by the speech-recognition event handlers. -/
inductive SpeechAction where
  | recStart
  | clearTextTimeout
  | scheduleClear (ms : Nat)
deriving DecidableEq, Repr

/-- The recognizer `onend` handler (lines 95–116): while the recording flag
is true, call `recognition.start()` again; otherwise clear any pending
text-clearing timeout and schedule the text to clear after 30000 ms. -/
def handleRecognitionEnd (isRecording : Bool) (hasTextTimeout : Bool) :
    List SpeechAction :=
  if isRecording then [SpeechAction.recStart]
  else
    (if hasTextTimeout then [SpeechAction.clearTextTimeout] else []) ++
      [SpeechAction.scheduleClear 30000]

/-- The transcript-collection loop of `onresult` (lines 59–62):
`for (let i = event.resultIndex; i < event.results.length; i++)` appending
`event.results[i][0].transcript`.  `results` is the list whose `i`-th entry
is `event.results[i][0].transcript`. -/
def collectTranscript (results : List String) (i : Nat) (acc : String) :
    String :=
  if h : i < results.length then
    collectTranscript results (i + 1) (acc ++ results.get ⟨i, h⟩)
  else acc
termination_by results.length - i

/-- The effect of the `onresult` handler on the `text` state (lines 57–65): the
collected transcript is passed to `setText`, replacing the previous value
(which the handler never reads). -/
def handleResult (prevText : String) (results : List String)
    (resultIndex : Nat) : String :=
  collectTranscript results resultIndex ""

/-- Concatenation of a list of transcript pieces. -/
def joinAll : List String → String
  | [] => ""
  | t :: rest => t ++ joinAll rest

/-! ### Connection interface: the shared-secret gate -/

/-- A session operation the connection interface forwards into the sharing
hook (`onCreateSession` / `onJoinSession`). -/
inductive UIAction where
  | createSession
  | joinSession (id : String)
deriving DecidableEq, Repr

/-- The hard-coded access key of the connection interface. -/
def CORRECT_SECRET_KEY : String := "Ravi560@"

/-- `validateSecretKey`: whether the entered key matches the constant,
toasting an access-denied error when it does not. -/
def validateSecretKey (secretKey : String) : Bool × List Toast :=
  if secretKey ≠ CORRECT_SECRET_KEY then
    (false, [⟨ToastKind.error, "Invalid secret key. Access denied."⟩])
  else (true, [])

/-- `handleCreateSession`: validate the key, then create the session. -/
def handleCreateSession (secretKey : String) : List UIAction × List Toast :=
  let v := validateSecretKey secretKey
  if v.1 = false then ([], v.2)
  else ([UIAction.createSession],
    v.2 ++ [⟨ToastKind.success, "New session created!"⟩])

/-- `handleJoinSession`: validate the key, then require a non-blank session
id, then join. -/
def handleJoinSession (secretKey joinSessionId : String) :
    List UIAction × List Toast :=
  let v := validateSecretKey secretKey
  if v.1 = false then ([], v.2)
  else if joinSessionId.trim = "" then
    ([], v.2 ++ [⟨ToastKind.error, "Please enter a session ID"⟩])
  else ([UIAction.joinSession joinSessionId], v.2)

/-! ### Concrete sample states used by the witness theorems -/

def sampleMsg : Message := ⟨"user-1", "Alice", "hello", true, 100, "user-1-100"⟩

def sampleState : SharingState :=
  ⟨"user-1", "Alice", "session-1", [], [], "", 0, false, true, ["user-1-100"]⟩

def sampleRoster : UserMap :=
  [("user-1", ⟨"Alice", false⟩), ("user-2", ⟨"Bob", true⟩)]

def sampleState2 : SharingState :=
  ⟨"user-1", "Alice", "session-1", [], sampleRoster, "", 0, false, true, []⟩

def sampleState3 : SharingState :=
  ⟨"user-1", "Alice", "session-1", [], [], "", 0, false, true, []⟩

def sampleSentMsg : Message := ⟨"user-1", "Alice", "x", true, 500, "user-1-500"⟩

def sampleState4 : SharingState :=
  ⟨"user-1", "Alice", "", [], [], "", 0, false, false, []⟩

def msgFirst : Message := ⟨"user-1", "Alice", "first", false, 100, "user-1-100"⟩

def msgSecond : Message :=
  ⟨"user-1", "Alice", "second", false, 200, "user-1-200"⟩

def recStatusState : SharingState :=
  ⟨"user-1", "Alice", "session-1", [msgFirst, msgSecond], [], "", 0, false,
    true, []⟩

def cexM1 : Message := ⟨"user-9", "Carol", "hello", true, 1, "mid-1"⟩

def cexM2 : Message := ⟨"user-9", "Carol", "hello there", false, 2, "mid-2"⟩

def peerA : SharingState :=
  ⟨"user-1", "Alice", "session-1", [], [], "", 0, false, true, []⟩

def peerB : SharingState :=
  ⟨"user-2", "Bob", "session-1", [], [], "", 0, false, true, []⟩

/-! ### Lemmas about the user-map operations -/

theorem lookupUser_setUser_self (l : UserMap) (u : String) (v : ConnectedUser) :
    lookupUser (setUser l u v) u = some v := by
  induction l with
  | nil => simp [setUser, lookupUser]
  | cons p rest ih =>
      obtain ⟨k, w⟩ := p
      by_cases h : k = u
      · simp [setUser, h, lookupUser]
      · simp [setUser, h, lookupUser, ih]

theorem lookupUser_setUser_other (l : UserMap) (u w : String)
    (v : ConnectedUser) (h : w ≠ u) :
    lookupUser (setUser l u v) w = lookupUser l w := by
  have hne : ¬(u = w) := fun hh => h hh.symm
  induction l with
  | nil => simp [setUser, lookupUser, hne]
  | cons p rest ih =>
      obtain ⟨k, w'⟩ := p
      by_cases hk : k = u
      · subst hk
        simp [setUser, lookupUser, hne]
      · simp [setUser, hk, lookupUser, ih]

theorem lookupUser_removeUser_self (l : UserMap) (u : String) :
    lookupUser (removeUser l u) u = none := by
  induction l with
  | nil => simp [removeUser, lookupUser]
  | cons p rest ih =>
      obtain ⟨k, w⟩ := p
      by_cases h : k = u
      · simpa [removeUser, List.filter_cons, h] using ih
      · simpa [removeUser, List.filter_cons, h, lookupUser] using ih

theorem lookupUser_removeUser_other (l : UserMap) (u w : String) (h : w ≠ u) :
    lookupUser (removeUser l u) w = lookupUser l w := by
  have hne : ¬(u = w) := fun hh => h hh.symm
  induction l with
  | nil => simp [removeUser, lookupUser]
  | cons p rest ih =>
      obtain ⟨k, w'⟩ := p
      by_cases hk : k = u
      · subst hk
        simpa [removeUser, List.filter_cons, lookupUser, hne] using ih
      · simp only [removeUser] at ih
        simp [removeUser, List.filter_cons, hk, lookupUser, ih]

/-! ### Lemmas about the message-event handler -/

theorem handleMessageEvent_mem (s : SharingState) (m : Message)
    (h : m.messageId ∈ s.processedMessageIds) : handleMessageEvent s m = s := by
  simp [handleMessageEvent, h]

theorem handleMessageEvent_processed (s : SharingState) (m : Message) :
    m.messageId ∈ (handleMessageEvent s m).processedMessageIds := by
  by_cases h : m.messageId ∈ s.processedMessageIds
  · rw [handleMessageEvent_mem s m h]; exact h
  · simp [handleMessageEvent, h]

theorem handleMessageEvent_not_mem (s : SharingState) (m : Message)
    (h : m.messageId ∉ s.processedMessageIds) :
    (handleMessageEvent s m).connectedUsers =
      setUser s.connectedUsers m.userId ⟨m.userName, m.isRecording⟩ ∧
    (handleMessageEvent s m).processedMessageIds =
      m.messageId :: s.processedMessageIds := by
  simp [handleMessageEvent, h]

/-- C1: delivering a broadcast message event whose `messageId` is already in
the processed-message-id set leaves `messages` and `connectedUsers`
unchanged, and delivering the same `Message` twice has the same effect on the
state as delivering it once. -/
theorem message_event_dedup_idempotent :
    (∀ (s : SharingState) (m : Message), m.messageId ∈ s.processedMessageIds →
      (handleMessageEvent s m).messages = s.messages ∧
      (handleMessageEvent s m).connectedUsers = s.connectedUsers) ∧
    (∀ (s : SharingState) (m : Message),
      handleMessageEvent (handleMessageEvent s m) m = handleMessageEvent s m) := by
  constructor
  · intro s m h
    rw [handleMessageEvent_mem s m h]
    exact ⟨rfl, rfl⟩
  · intro s m
    exact handleMessageEvent_mem _ m (handleMessageEvent_processed s m)

theorem message_event_dedup_idempotent_witness :
    sampleMsg.messageId ∈ sampleState.processedMessageIds ∧
    (handleMessageEvent sampleState sampleMsg).messages = sampleState.messages ∧
    (handleMessageEvent sampleState sampleMsg).connectedUsers =
      sampleState.connectedUsers :=
  ⟨by decide, message_event_dedup_idempotent.1 sampleState sampleMsg (by decide)⟩

/-- C4: after the `user_left` handler runs for a user id, that id is absent
from `connectedUsers` and the entry of every other user id is unchanged. -/
theorem user_left_removes_only_target :
    ∀ (s : SharingState) (u un : String),
      lookupUser (handleUserLeft s u un).1.connectedUsers u = none ∧
      ∀ v, v ≠ u →
        lookupUser (handleUserLeft s u un).1.connectedUsers v =
        lookupUser s.connectedUsers v := by
  intro s u un
  refine ⟨lookupUser_removeUser_self _ _, fun v hv => ?_⟩
  exact lookupUser_removeUser_other _ _ _ hv

theorem user_left_removes_only_target_witness :
    lookupUser (handleUserLeft sampleState2 "user-2" "Bob").1.connectedUsers
      "user-2" = none ∧
    lookupUser (handleUserLeft sampleState2 "user-2" "Bob").1.connectedUsers
      "user-1" = lookupUser sampleState2.connectedUsers "user-1" :=
  ⟨(user_left_removes_only_target sampleState2 "user-2" "Bob").1,
   (user_left_removes_only_target sampleState2 "user-2" "Bob").2 "user-1"
     (by decide)⟩

/-- C3: `joinSession` on the empty string reports an error and leaves the
state unchanged; on every non-empty id (with no existence check of any kind)
it sets `sessionId` to the id and resets `connectedUsers` to exactly one
entry, the local user with `isRecording = false`. -/
theorem joinSession_spec :
    (∀ s : SharingState, joinSession s "" =
      (s, [⟨ToastKind.error, "Invalid session ID"⟩])) ∧
    (∀ (s : SharingState) (id : String), id ≠ "" →
      (joinSession s id).1.sessionId = id ∧
      (joinSession s id).1.connectedUsers =
        [(s.userId, ⟨s.userName, false⟩)]) := by
  constructor
  · intro s
    simp [joinSession]
  · intro s id h
    simp [joinSession, h, setupRealtimeChannel]

theorem joinSession_spec_witness :
    ("abc" : String) ≠ "" ∧
    (joinSession sampleState2 "abc").1.sessionId = "abc" ∧
    (joinSession sampleState2 "abc").1.connectedUsers =
      [(sampleState2.userId, ⟨sampleState2.userName, false⟩)] :=
  ⟨by decide, joinSession_spec.2 sampleState2 "abc" (by decide)⟩

/-- C8: a broadcast sent less than 1000 ms after the previous one implies the
recording flag changed; every sent broadcast records its send time in
`lastBroadcastTimeRef` (so the first conjunct really is about two consecutive
sends); and a call in which neither the text nor the recording flag differs
from the last broadcast sends nothing and leaves the state unchanged. -/
theorem broadcast_throttle :
    (∀ (s : SharingState) (now : Nat) (text : String) (r : Bool) (m : Message),
      (broadcastMessage s now text r).2 = some m →
      now - s.lastBroadcastTimeRef < 1000 → r ≠ s.isRecordingRef) ∧
    (∀ (s : SharingState) (now : Nat) (text : String) (r : Bool) (m : Message),
      (broadcastMessage s now text r).2 = some m →
      (broadcastMessage s now text r).1.lastBroadcastTimeRef = now) ∧
    (∀ (s : SharingState) (now : Nat),
      broadcastMessage s now s.latestMessageRef s.isRecordingRef =
        (s, none)) := by
  refine ⟨?_, ?_, ?_⟩
  · intro s now text r m hsend hlt heq
    simp only [broadcastMessage] at hsend
    split at hsend
    · exact Option.noConfusion hsend
    · split at hsend
      · exact Option.noConfusion hsend
      · rename_i hcond
        exact hcond (Or.inr (by simp [heq, hlt]))
  · intro s now text r m hsend
    simp only [broadcastMessage] at hsend ⊢
    split at hsend
    · exact Option.noConfusion hsend
    · split at hsend
      · exact Option.noConfusion hsend
      · rename_i h1 h2
        rw [if_neg h1, if_neg h2]
  · intro s now
    simp [broadcastMessage]

theorem broadcast_throttle_witness :
    (true : Bool) ≠ sampleState3.isRecordingRef :=
  broadcast_throttle.1 sampleState3 500 "x" true sampleSentMsg
    (by decide) (by decide)

/-- C9: with no active session (empty `sessionId` or no stored channel),
`broadcastMessage`, `updateTranscription` and `updateRecordingStatus` all
return leaving the whole state (messages, connected users and every ref)
unchanged and sending nothing. -/
theorem no_session_frame :
    ∀ (s : SharingState) (now : Nat) (text : String) (r : Bool),
      s.sessionId = "" ∨ s.hasChannel = false →
      broadcastMessage s now text r = (s, none) ∧
      updateTranscription s now text = (s, none) ∧
      updateRecordingStatus s now r = (s, none) := by
  intro s now text r h
  have hb : ∀ (t : String) (rr : Bool), broadcastMessage s now t rr = (s, none) := by
    intro t rr
    unfold broadcastMessage
    rw [if_pos h]
  refine ⟨hb text r, ?_, ?_⟩
  · unfold updateTranscription
    split
    · rfl
    · split
      · rfl
      · split
        · rfl
        · exact hb _ _
  · unfold updateRecordingStatus
    split
    · rfl
    · exact hb _ _

theorem no_session_frame_witness :
    (sampleState4.sessionId = "" ∨ sampleState4.hasChannel = false) ∧
    broadcastMessage sampleState4 500 "x" true = (sampleState4, none) ∧
    updateTranscription sampleState4 500 "x" = (sampleState4, none) ∧
    updateRecordingStatus sampleState4 500 true = (sampleState4, none) :=
  ⟨Or.inl rfl, no_session_frame sampleState4 500 "x" true (Or.inl rfl)⟩

/-- C2 (exhibit of the divergence): with two messages previously sent by the
local user, `updateRecordingStatus` broadcasts the text of the FIRST of them
(`messages.find` returns the earliest match), while the most recent message
previously sent by the local user — the one the claim and the comment in the code
itself describe, and the one `getLatestUserMessage` returns — has the other
text. -/
theorem updateRecordingStatus_sends_first_not_latest :
    ((updateRecordingStatus recStatusState 5000 true).2.map Message.text =
      some "first") ∧
    ((getLatestUserMessage recStatusState "user-1").map Message.text =
      some "second") := by
  constructor
  · rfl
  · rfl

/-- C5: the recognizer `onend` handler issues a restart of the recognizer
exactly when the recording flag is true at the end event. -/
theorem onend_restarts_iff_recording :
    ∀ (r t : Bool),
      SpeechAction.recStart ∈ handleRecognitionEnd r t ↔ r = true := by
  intro r t
  cases r <;> cases t <;> simp [handleRecognitionEnd]

theorem collectTranscript_eq (l : List String) :
    ∀ (i : Nat) (acc : String),
      collectTranscript l i acc = acc ++ joinAll (l.drop i) := by
  have H : ∀ (n i : Nat) (acc : String), l.length - i ≤ n →
      collectTranscript l i acc = acc ++ joinAll (l.drop i) := by
    intro n
    induction n with
    | zero =>
        intro i acc h
        have hi : ¬ i < l.length := by omega
        rw [collectTranscript, dif_neg hi,
          List.drop_eq_nil_of_le (by omega : l.length ≤ i)]
        simp [joinAll]
    | succ n ih =>
        intro i acc h
        rw [collectTranscript]
        by_cases hi : i < l.length
        · rw [dif_pos hi, ih (i + 1) _ (by omega),
            List.drop_eq_getElem_cons hi]
          simp [joinAll, List.get_eq_getElem, String.append_assoc]
        · rw [dif_neg hi,
            List.drop_eq_nil_of_le (by omega : l.length ≤ i)]
          simp [joinAll]
  intro i acc
  exact H (l.length - i) i acc le_rfl

/-- C6: after a recognizer result event the text equals the concatenation of
the first-alternative transcripts from `resultIndex` to the end of the
results, independently of the previous text value — the transcript of the event
replaces the previous text rather than being appended to it. -/
theorem onresult_replaces_text :
    ∀ (prev : String) (results : List String) (idx : Nat),
      handleResult prev results idx = joinAll (results.drop idx) := by
  intro prev results idx
  rw [handleResult, collectTranscript_eq]
  simp

/-- C7: the connection interface creates or joins a session only when the
entered secret key is exactly the hard-coded constant: any issued session
action implies the key matches; with the correct key creation proceeds; and
for every other key both handlers show only the access-denied error and
issue no action. -/
theorem secret_key_gate :
    (∀ (k jid : String),
      ((handleCreateSession k).1 ≠ [] ∨ (handleJoinSession k jid).1 ≠ []) →
      k = CORRECT_SECRET_KEY) ∧
    ((handleCreateSession CORRECT_SECRET_KEY).1 = [UIAction.createSession]) ∧
    (∀ (k jid : String), k ≠ CORRECT_SECRET_KEY →
      handleCreateSession k =
        ([], [⟨ToastKind.error, "Invalid secret key. Access denied."⟩]) ∧
      handleJoinSession k jid =
        ([], [⟨ToastKind.error, "Invalid secret key. Access denied."⟩])) := by
  have hdeny : ∀ k : String, k ≠ CORRECT_SECRET_KEY →
      validateSecretKey k =
        (false, [⟨ToastKind.error, "Invalid secret key. Access denied."⟩]) := by
    intro k hk
    simp [validateSecretKey, hk]
  refine ⟨?_, ?_, ?_⟩
  · intro k jid h
    by_contra hk
    rcases h with h | h
    · exact h (by simp [handleCreateSession, hdeny k hk])
    · exact h (by simp [handleJoinSession, hdeny k hk])
  · rfl
  · intro k jid hk
    constructor
    · simp [handleCreateSession, hdeny k hk]
    · simp [handleJoinSession, hdeny k hk]

theorem secret_key_gate_witness :
    ("wrong" : String) ≠ CORRECT_SECRET_KEY ∧
    handleCreateSession "wrong" =
      ([], [⟨ToastKind.error, "Invalid secret key. Access denied."⟩]) ∧
    handleJoinSession "wrong" "abc" =
      ([], [⟨ToastKind.error, "Invalid secret key. Access denied."⟩]) :=
  ⟨by decide, secret_key_gate.2.2 "wrong" "abc" (by decide)⟩

/-! ### Convergence of peer views under message delivery -/

theorem deliverAll_lookup (ms : List Message) :
    ∀ (s : SharingState) (u : String),
      (ms.map Message.messageId).Nodup →
      (∀ m ∈ ms, m.messageId ∉ s.processedMessageIds) →
      lookupUser (deliverAll s ms).connectedUsers u =
        (match lastWriteOf ms u with
          | some m => some ⟨m.userName, m.isRecording⟩
          | none => lookupUser s.connectedUsers u) := by
  induction ms with
  | nil =>
      intro s u _ _
      simp [deliverAll, lastWriteOf]
  | cons m rest ih =>
      intro s u hnodup hfresh
      have hm : m.messageId ∉ s.processedMessageIds := hfresh m (by simp)
      have hstep := handleMessageEvent_not_mem s m hm
      have hpair : m.messageId ∉ rest.map Message.messageId ∧
          (rest.map Message.messageId).Nodup := by
        rw [List.map_cons, List.nodup_cons] at hnodup
        exact hnodup
      have hrestfresh : ∀ m' ∈ rest,
          m'.messageId ∉ (handleMessageEvent s m).processedMessageIds := by
        intro m' hm'
        rw [hstep.2]
        simp only [List.mem_cons]
        rintro (h | h)
        · exact hpair.1 (h ▸ List.mem_map_of_mem Message.messageId hm')
        · exact hfresh m' (List.mem_cons_of_mem _ hm') h
      have hd : deliverAll s (m :: rest) =
          deliverAll (handleMessageEvent s m) rest := rfl
      rw [hd, ih (handleMessageEvent s m) u hpair.2 hrestfresh]
      cases hlast : lastWriteOf rest u with
      | some m' => simp [lastWriteOf, hlast]
      | none =>
          by_cases hu : m.userId = u
          · subst hu
            simp [lastWriteOf, hlast, hstep.1, lookupUser_setUser_self]
          · have hne : u ≠ m.userId := fun hh => hu hh.symm
            simp [lastWriteOf, hlast, hu, hstep.1,
              lookupUser_setUser_other _ _ _ _ hne]

theorem lastWriteOf_isSome (ms : List Message) (u : String)
    (h : ∃ m ∈ ms, m.userId = u) : (lastWriteOf ms u).isSome = true := by
  induction ms with
  | nil => simp at h
  | cons m rest ih =>
      rcases h with ⟨m', hm', hu⟩
      rcases List.mem_cons.mp hm' with rfl | hmem
      · rw [lastWriteOf]
        cases hlast : lastWriteOf rest u with
        | some mm => simp
        | none => simp [hu]
      · rw [lastWriteOf]
        have := ih ⟨m', hmem, hu⟩
        cases hlast : lastWriteOf rest u with
        | some mm => simp
        | none => rw [hlast] at this; simp at this

/-- C10 (amended): if all peers receive the same broadcast messages in the
same order — with message ids distinct and not yet processed by either peer —
then, for every user that sent one of those messages, all peers end with the
same `connectedUsers` entry for that user, namely the name and recording
flag of the last delivered message of that user (last-writer-wins in delivery
order).  The client itself enforces no ordering, and differently ordered
deliveries can diverge (see the counterexample). -/
theorem same_order_delivery_converges :
    ∀ (sA sB : SharingState) (ms : List Message) (u : String),
      (ms.map Message.messageId).Nodup →
      (∀ m ∈ ms, m.messageId ∉ sA.processedMessageIds) →
      (∀ m ∈ ms, m.messageId ∉ sB.processedMessageIds) →
      (∃ m ∈ ms, m.userId = u) →
      lookupUser (deliverAll sA ms).connectedUsers u =
        lookupUser (deliverAll sB ms).connectedUsers u ∧
      ∀ m, lastWriteOf ms u = some m →
        lookupUser (deliverAll sA ms).connectedUsers u =
          some ⟨m.userName, m.isRecording⟩ := by
  intro sA sB ms u hnodup hfreshA hfreshB hsent
  obtain ⟨mw, hmw⟩ := Option.isSome_iff_exists.mp (lastWriteOf_isSome ms u hsent)
  have hA := deliverAll_lookup ms sA u hnodup hfreshA
  have hB := deliverAll_lookup ms sB u hnodup hfreshB
  rw [hmw] at hA hB
  constructor
  · rw [hA, hB]
  · intro m hm
    rw [hmw] at hm
    cases hm
    exact hA

theorem same_order_delivery_converges_witness :
    lookupUser (deliverAll peerA [cexM1]).connectedUsers "user-9" =
      lookupUser (deliverAll peerB [cexM1]).connectedUsers "user-9" ∧
    lookupUser (deliverAll peerA [cexM1]).connectedUsers "user-9" =
      some ⟨cexM1.userName, cexM1.isRecording⟩ :=
  ⟨(same_order_delivery_converges peerA peerB [cexM1] "user-9" (by decide)
      (by decide) (by decide) ⟨cexM1, by decide, by decide⟩).1,
   (same_order_delivery_converges peerA peerB [cexM1] "user-9" (by decide)
      (by decide) (by decide) ⟨cexM1, by decide, by decide⟩).2 cexM1
      (by decide)⟩

/-- C10 (counterexample to the claim as stated): two peers each receive
exactly the same two broadcast messages — every message is delivered to every
peer — but in different orders, and their resulting views of the
`connectedUsers` entry differ permanently; delivery alone does not make the
views of the peers converge. -/
theorem delivery_alone_no_convergence :
    List.Perm [cexM2, cexM1] [cexM1, cexM2] ∧
    lookupUser (deliverAll peerA [cexM1, cexM2]).connectedUsers "user-9" ≠
      lookupUser (deliverAll peerB [cexM2, cexM1]).connectedUsers "user-9" := by
  constructor
  · exact List.Perm.swap cexM1 cexM2 []
  · decide
